/-
Formal verification of the SafeShe backend (src/main.py, src/schemas.py).

Shallow embedding conventions:
* `datetime` values are modelled as natural numbers (totally ordered clock
  readings); `datetime.min` is modelled as `0`.
* floats (`lat`, `lng`, …) are modelled as rationals; the source only
  compares them, so order semantics is all that matters.
* a FastAPI `WebSocket` is modelled by an identifier together with an
  `alive` flag: `send_text` succeeds exactly on an alive socket and raises
  otherwise.  A raised exception in the source is modelled by branching on
  that flag; handlers that catch exceptions are total functions here.
* Python `dict[str, list[WebSocket]]` is modelled as an association list
  with dict semantics: assignment replaces the first matching key in
  place, a new key is appended at the end, `pop` removes the entry.
-/
import Mathlib

/-- Model of a FastAPI `WebSocket`: `alive` tells whether `send_text`
succeeds (an already-dead socket makes `send_text` raise). -/
structure WebSocket where
  id : Nat
  alive : Bool
deriving DecidableEq, Repr

/-- The registry map `dict[str, list[WebSocket]]` of `ConnectionManager.active`. -/
abbrev Registry := List (String × List WebSocket)

/-- `d.get(k)` as an `Option`: first entry with key `k`, if any. -/
def dictFind : Registry → String → Option (List WebSocket)
  | [], _ => none
  | kv :: rest, k => if kv.1 = k then some kv.2 else dictFind rest k

/-- `d.get(k, [])`: the list registered under `k`, or `[]`. -/
def dictGet (d : Registry) (k : String) : List WebSocket :=
  (dictFind d k).getD []

/-- `d[k] = v` with dict semantics: replace the first entry with key `k`
in place, otherwise append the new entry at the end. -/
def dictSet : Registry → String → List WebSocket → Registry
  | [], k, v => [(k, v)]
  | kv :: rest, k, v => if kv.1 = k then (k, v) :: rest else kv :: dictSet rest k v

/-- `d.pop(k, None)`: drop the first entry with key `k`. -/
def dictPop : Registry → String → Registry
  | [], _ => []
  | kv :: rest, k => if kv.1 = k then rest else kv :: dictPop rest k

/-- `ConnectionManager` from src/main.py: `active` maps a tracked user id to
the list of currently-open viewer sockets. -/
structure ConnectionManager where
  active : Registry
deriving DecidableEq, Repr

/-- The freshly constructed manager: `self.active = {}`. -/
def ConnectionManager.empty : ConnectionManager := ⟨[]⟩

/-- `ConnectionManager.connect`: `self.active.setdefault(user_id, []).append(websocket)`.
(The `await websocket.accept()` handshake always succeeds in this model.) -/
def ConnectionManager.connect (m : ConnectionManager) (user_id : String)
    (websocket : WebSocket) : ConnectionManager :=
  ⟨dictSet m.active user_id (dictGet m.active user_id ++ [websocket])⟩

/-- `ConnectionManager.disconnect`: remove `websocket` from the user's list
if present (Python `list.remove` drops the first occurrence), then pop the
per-user entry when the list has become empty. -/
def ConnectionManager.disconnect (m : ConnectionManager) (user_id : String)
    (websocket : WebSocket) : ConnectionManager :=
  match dictFind m.active user_id with
  | none => m
  | some conns =>
      let conns' := if websocket ∈ conns then conns.erase websocket else conns
      if conns'.isEmpty then ⟨dictPop m.active user_id⟩
      else ⟨dictSet m.active user_id conns'⟩

/-- A JSON-serializable field value (string, number, or store id /
timestamp rendered as a number). -/
inductive Val
  | s (v : String)
  | q (v : ℚ)
  | n (v : Nat)
deriving DecidableEq, Repr

/-- A broadcast payload `{"type": ..., "data": {...}}` (the source sends its
`json.dumps`; we keep the structured value). -/
structure Msg where
  type : String
  data : List (String × Val)
deriving DecidableEq, Repr

/-- `ConnectionManager.broadcast`: try to send to every socket registered
for `user_id`; a send that raises puts the socket on the `stale` list, and
after the loop each stale socket is disconnected.  Returns the list of
(socket, message) deliveries that succeeded together with the new manager;
the function is total: no exception escapes to the caller. -/
def ConnectionManager.broadcast (m : ConnectionManager) (user_id : String)
    (message : Msg) : List (WebSocket × Msg) × ConnectionManager :=
  let conns := dictGet m.active user_id
  let delivered := (conns.filter (fun ws => ws.alive)).map (fun ws => (ws, message))
  let stale := conns.filter (fun ws => !ws.alive)
  (delivered, stale.foldl (fun acc ws => acc.disconnect user_id ws) m)

/-- The three registry operations, for stating invariants over arbitrary
operation sequences. -/
inductive RegOp
  | connect (user_id : String) (ws : WebSocket)
  | disconnect (user_id : String) (ws : WebSocket)
  | broadcast (user_id : String) (message : Msg)

/-- Apply one registry operation. -/
def applyOp (m : ConnectionManager) : RegOp → ConnectionManager
  | .connect uid ws => m.connect uid ws
  | .disconnect uid ws => m.disconnect uid ws
  | .broadcast uid msg => (m.broadcast uid msg).2

/-- Invariant: every user id present in the registry maps to a non-empty
connection list. -/
def ConnectionManager.Inv (m : ConnectionManager) : Prop :=
  ∀ kv ∈ m.active, kv.2 ≠ []

instance (m : ConnectionManager) : Decidable m.Inv :=
  List.decidableBAll _ m.active

/-- The registry keys are pairwise distinct (always true of a Python dict). -/
def KeysNodup (d : Registry) : Prop :=
  (d.map Prod.fst).Nodup

instance (d : Registry) : Decidable (KeysNodup d) :=
  inferInstanceAs (Decidable (d.map Prod.fst).Nodup)

/-- Erase the elements of `xs` from `l`, one first-occurrence at a time
(the effect of the stale-pruning loop of `broadcast` on one user's list). -/
def eraseList (l : List WebSocket) (xs : List WebSocket) : List WebSocket :=
  xs.foldl List.erase l

/-! ### Data model (src/schemas.py) and the spec-modelled document store -/

/-- `User` (schemas.py): OAuth-backed account, all fields optional. -/
structure User where
  name : Option String
  email : Option String
  provider : Option String
  provider_id : Option String
  photo_url : Option String
  is_active : Bool
deriving DecidableEq, Repr

/-- `Trackpoint` (schemas.py): the submitted field values (validation of
the pydantic `Field` bounds is `Trackpoint.validB` below). -/
structure Trackpoint where
  user_id : String
  lat : ℚ
  lng : ℚ
  accuracy : Option ℚ
  speed : Option ℚ
  heading : Option ℚ
  battery : Option ℚ
  ts : Option Nat
deriving DecidableEq, Repr

/-- The pydantic bounds on `Trackpoint`: `lat ∈ [-90, 90]`,
`lng ∈ [-180, 180]`, `accuracy ≥ 0`, `speed ≥ 0`, `heading ∈ [0, 360]`,
`battery ∈ [0, 100]`; absent optional fields pass. -/
def Trackpoint.validB (p : Trackpoint) : Bool :=
  decide (-90 ≤ p.lat) && decide (p.lat ≤ 90) &&
  decide (-180 ≤ p.lng) && decide (p.lng ≤ 180) &&
  (p.accuracy.all fun a => decide (0 ≤ a)) &&
  (p.speed.all fun s => decide (0 ≤ s)) &&
  (p.heading.all fun h => decide (0 ≤ h) && decide (h ≤ 360)) &&
  (p.battery.all fun b => decide (0 ≤ b) && decide (b ≤ 100))

/-- `Incident` (schemas.py). -/
structure Incident where
  user_id : String
  type : String
  description : Option String
  lat : Option ℚ
  lng : Option ℚ
  media_urls : List String
  severity : Option Int
deriving DecidableEq, Repr

/-- The pydantic bounds on `Incident`: optional `lat ∈ [-90, 90]`,
`lng ∈ [-180, 180]`, `severity ∈ [1, 5]`. -/
def Incident.validB (i : Incident) : Bool :=
  (i.lat.all fun v => decide (-90 ≤ v) && decide (v ≤ 90)) &&
  (i.lng.all fun v => decide (-180 ≤ v) && decide (v ≤ 180)) &&
  (i.severity.all fun s => decide (1 ≤ s) && decide (s ≤ 5))

/-- A persisted `user` document: the record plus the store-generated id
(Mongo's `_id`, called `oid` here) and creation timestamp. -/
structure UserDoc where
  data : User
  oid : Nat
  created_at : Option Nat
deriving DecidableEq, Repr

/-- A persisted `trackpoint` document: the point, the handler-assigned
`server_ts`, and the store-generated `oid` (`_id`) and `created_at`. -/
structure TrackDoc where
  point : Trackpoint
  server_ts : Nat
  oid : Nat
  created_at : Option Nat
deriving DecidableEq, Repr

/-- A persisted `incident` document. -/
structure IncidentDoc where
  data : Incident
  oid : Nat
  created_at : Option Nat
deriving DecidableEq, Repr

/-- Modelled from the spec: `database.py` is not under src/.  Per §2 the
Document Store Adapter provides `insert(collection, record) -> id` and
`query(collection, filter, limit) -> list of records` with no ordering
guarantee; per §6 every persisted record carries a store-generated
identifier and a creation timestamp.  One list per collection, insertion
at the end, a counter for generated ids; queries return matching records
in insertion order (one order the store is allowed to produce). -/
structure Store where
  users : List UserDoc
  trackpoints : List TrackDoc
  incidents : List IncidentDoc
  nextId : Nat
deriving DecidableEq, Repr

/-- The store with nothing persisted yet. -/
def Store.empty : Store := ⟨[], [], [], 0⟩

/-- Modelled from the spec: `create_document("user", doc)`. -/
def Store.create_user (st : Store) (u : User) (now : Nat) : Nat × Store :=
  (st.nextId,
   { st with users := st.users ++ [⟨u, st.nextId, some now⟩], nextId := st.nextId + 1 })

/-- Modelled from the spec: `create_document("trackpoint", data)` where
`data` is the dumped point plus `server_ts`. -/
def Store.create_trackpoint (st : Store) (p : Trackpoint) (server_ts now : Nat) :
    Nat × Store :=
  (st.nextId,
   { st with trackpoints := st.trackpoints ++ [⟨p, server_ts, st.nextId, some now⟩],
             nextId := st.nextId + 1 })

/-- Modelled from the spec: `create_document("incident", inc)`. -/
def Store.create_incident (st : Store) (i : Incident) (now : Nat) : Nat × Store :=
  (st.nextId,
   { st with incidents := st.incidents ++ [⟨i, st.nextId, some now⟩],
             nextId := st.nextId + 1 })

/-- Modelled from the spec:
`get_documents("trackpoint", {"user_id": uid}, limit=n)` — the matching
records in the store's own order, truncated to `limit`. -/
def Store.get_trackpoints (st : Store) (uid : String) (limit : Nat) : List TrackDoc :=
  (st.trackpoints.filter (fun d => d.point.user_id == uid)).take limit

/-- The state a request handler touches: the persistent store and the
in-memory connection registry. -/
structure SysState where
  store : Store
  mgr : ConnectionManager
deriving DecidableEq, Repr

/-! ### Location endpoints (src/main.py) -/

/-- `x.get("created_at", datetime.min)`; `datetime.min` is modelled by `0`. -/
def createdKey (d : TrackDoc) : Nat := d.created_at.getD 0

/-- The order of `items.sort(key=lambda x: x.get("created_at", datetime.min), reverse=True)`:
descending on `createdKey`.  Python's sort is stable, and so is
`List.insertionSort` with this total transitive relation, so the two sorts
agree. -/
def byCreatedDesc (a b : TrackDoc) : Prop := createdKey b ≤ createdKey a

instance : DecidableRel byCreatedDesc := fun _ _ => Nat.decLe _ _

instance : IsTotal TrackDoc byCreatedDesc :=
  ⟨fun a b => Nat.le_total (createdKey b) (createdKey a)⟩

instance : IsTrans TrackDoc byCreatedDesc :=
  ⟨fun _ _ _ h1 h2 => Nat.le_trans h2 h1⟩

/-- `datetime.isoformat()` on the Nat-modelled clock: a canonical
rendering of the timestamp. -/
def isoformat (t : Nat) : String := toString t ++ "Z"

/-- `point.model_dump()`: the field dictionary; an absent optional field
dumps to `None` (here `none`). -/
def Trackpoint.model_dump (p : Trackpoint) : List (String × Option Val) :=
  [("user_id", some (.s p.user_id)),
   ("lat", some (.q p.lat)),
   ("lng", some (.q p.lng)),
   ("accuracy", p.accuracy.map .q),
   ("speed", p.speed.map .q),
   ("heading", p.heading.map .q),
   ("battery", p.battery.map .q),
   ("ts", p.ts.map .n)]

/-- `{k: v for k, v in d.items() if v is not None}`. -/
def nonNullItems (l : List (String × Option Val)) : List (String × Val) :=
  l.filterMap (fun kv => kv.2.map (fun v => (kv.1, v)))

/-- `POST /location/update` (`location_update` in src/main.py) together
with the request layer's pydantic validation of the body: reject
out-of-range input with a 422 before any side effect; otherwise stamp
`server_ts := tServer`, persist (the store reads `tCreate` for
`created_at`), broadcast `{"type": "track", "data": non-null fields +
"_id" + isoformat server_ts}` to the point's user channel, and return the
generated id.  The handler never raises: broadcast failures only prune
stale sockets. -/
def location_update (point : Trackpoint) (tServer tCreate : Nat) (sys : SysState) :
    Except (Nat × String) Nat × SysState × List (WebSocket × Msg) :=
  if point.validB then
    let (new_id, store') := sys.store.create_trackpoint point tServer tCreate
    let payload : Msg :=
      ⟨"track", nonNullItems point.model_dump ++
        [("_id", .n new_id), ("server_ts", .s (isoformat tServer))]⟩
    let (sent, mgr') := sys.mgr.broadcast point.user_id payload
    (.ok new_id, ⟨store', mgr'⟩, sent)
  else
    (.error (422, "validation error"), sys, [])

/-- `POST /incidents` (`create_incident` in src/main.py) with pydantic
validation: reject invalid input with a 422 before any persistence. -/
def create_incident (inc : Incident) (tCreate : Nat) (st : Store) :
    Except (Nat × String) Nat × Store :=
  if inc.validB then
    let (iid, st') := st.create_incident inc tCreate
    (.ok iid, st')
  else
    (.error (422, "validation error"), st)

/-- `GET /location/last` (`location_last` in src/main.py): query up to 50
of the user's trackpoints, sort them by `created_at` descending
(`datetime.min` for a missing key), return the first or `None`. -/
def location_last (st : Store) (uid : String) : Option TrackDoc :=
  let items := st.get_trackpoints uid 50
  (items.insertionSort byCreatedDesc).head?

/-- Spec-side definition, written from the claim's words for comparison
with `location_last`: the result must be a stored Trackpoint of the user
maximal in the authoritative `server_ts` order, or `none` exactly when the
user has no stored Trackpoint — regardless of how many trackpoints the
user has and of the store's result ordering. -/
def isMostRecentByServerTs (st : Store) (uid : String) (r : Option TrackDoc) : Bool :=
  let mine := st.trackpoints.filter (fun d => d.point.user_id == uid)
  match r with
  | none => mine.isEmpty
  | some d => mine.contains d && mine.all (fun x => x.server_ts ≤ d.server_ts)

/-- A message pushed over the live socket (`{"type": "last", "data": doc}`). -/
structure WsOut where
  type : String
  doc : TrackDoc
deriving DecidableEq, Repr

/-- The connection-setup part of `websocket_endpoint` (src/main.py):
register the socket, query the user's trackpoints with `limit=1`, sort
that (at most one-element) list by `created_at` descending and, if
non-empty, send its head as a `"last"` message; a failed send is swallowed
by the inner `except` and nothing is sent.  Returns the new state and the
messages delivered to the fresh socket before any live updates. -/
def websocket_endpoint (sys : SysState) (user_id : String) (websocket : WebSocket) :
    SysState × List (WebSocket × WsOut) :=
  let mgr' := sys.mgr.connect user_id websocket
  let items := sys.store.get_trackpoints user_id 1
  let sorted := items.insertionSort byCreatedDesc
  match sorted.head? with
  | some latest =>
      (⟨sys.store, mgr'⟩, if websocket.alive then [(websocket, ⟨"last", latest⟩)] else [])
  | none => (⟨sys.store, mgr'⟩, [])

/-! ### Mock auth (src/main.py) -/

/-- `MockAuthRequest` (src/main.py). -/
structure MockAuthRequest where
  provider : String
  token : Option String
  name : Option String
  email : Option String
  photo_url : Option String
deriving DecidableEq, Repr

/-- Python `str.lower()`, modelled as character-wise lowercasing
(`String.toLower` itself is defined by well-founded recursion and does not
reduce in the kernel; this map over the character list is the same
function on every string in play). -/
def pyLower (s : String) : String :=
  ⟨s.data.map Char.toLower⟩

/-- Python `x or default` for an optional string (`None` and `""` are falsy). -/
def pyOr (x : Option String) (dflt : String) : String :=
  match x with
  | none => dflt
  | some s => if s.isEmpty then dflt else s

/-- The fixed provider allow-set `{"google", "microsoft", "apple", "mock"}`. -/
def allowedProviders : List String := ["google", "microsoft", "apple", "mock"]

/-- `POST /auth/mock-login` (`mock_login` in src/main.py): lowercase the
provider, reject with a 400 if it is not in the allow-set, otherwise
create a `User` record with defaults substituted and return
`{"user_id": ..., "provider": ...}`. -/
def mock_login (payload : MockAuthRequest) (tCreate : Nat) (st : Store) :
    Except (Nat × String) (Nat × String) × Store :=
  let provider := pyLower payload.provider
  if allowedProviders.contains provider then
    let user_doc : User :=
      { name := some (pyOr payload.name "SafeShe User")
        email := some (pyOr payload.email ("user-" ++ provider ++ "@safeshe.app"))
        provider := some provider
        provider_id := some (pyOr payload.token "mock-token")
        photo_url := payload.photo_url
        is_active := true }
    let (user_id, st') := st.create_user user_doc tCreate
    (.ok (user_id, provider), st')
  else
    (.error (400, "Unsupported provider"), st)

/-- A store holding two trackpoints for "u1" whose `created_at` order
disagrees with their `server_ts` order: the first submission read its
`server_ts` clock later than the second but was inserted last (two
in-flight submissions whose `datetime.now()` reads interleave produce
exactly this store). -/
def twoPointStore : Store :=
  ⟨[],
   [⟨⟨"u1", 1, 2, none, none, none, none, none⟩, 6, 0, some 9⟩,
    ⟨⟨"u1", 1, 2, none, none, none, none, none⟩, 5, 1, some 10⟩],
   [], 2⟩

/-- A store holding two trackpoints for "u1" in plain chronological order:
`created_at` and `server_ts` both increase with insertion order. -/
def chronoStore : Store :=
  ⟨[],
   [⟨⟨"u1", 1, 2, none, none, none, none, none⟩, 1, 0, some 10⟩,
    ⟨⟨"u1", 3, 4, none, none, none, none, none⟩, 2, 1, some 20⟩],
   [], 2⟩

/-! ### Dictionary lemmas -/

theorem dictFind_dictSet_self (d : Registry) (k : String) (v : List WebSocket) :
    dictFind (dictSet d k v) k = some v := by
  induction d with
  | nil => simp [dictSet, dictFind]
  | cons kv rest ih =>
      obtain ⟨a, b⟩ := kv
      by_cases h : a = k
      · simp [dictSet, dictFind, h]
      · simp [dictSet, dictFind, h, ih]

theorem dictFind_dictSet_ne (d : Registry) (k k' : String) (v : List WebSocket)
    (h : k' ≠ k) : dictFind (dictSet d k v) k' = dictFind d k' := by
  have h' : ¬k = k' := fun hh => h hh.symm
  induction d with
  | nil => simp [dictSet, dictFind, h']
  | cons kv rest ih =>
      obtain ⟨a, b⟩ := kv
      by_cases hk : a = k
      · subst hk
        simp [dictSet, dictFind, h']
      · simp [dictSet, dictFind, hk, ih]

theorem dictSet_of_find_eq (d : Registry) (k : String) (v : List WebSocket)
    (h : dictFind d k = some v) : dictSet d k v = d := by
  induction d with
  | nil => simp [dictFind] at h
  | cons kv rest ih =>
      obtain ⟨a, b⟩ := kv
      by_cases hk : a = k
      · subst hk
        simp [dictFind] at h
        simp [dictSet, h]
      · simp [dictFind, hk] at h
        simp [dictSet, hk, ih h]

theorem dictPop_sublist (d : Registry) (k : String) : (dictPop d k).Sublist d := by
  induction d with
  | nil => simp [dictPop]
  | cons kv rest ih =>
      by_cases hk : kv.1 = k
      · simp [dictPop, hk]
      · simpa [dictPop, hk] using ih.cons₂ kv

theorem dictFind_eq_none_of_not_mem_keys (d : Registry) (k : String)
    (h : k ∉ d.map Prod.fst) : dictFind d k = none := by
  induction d with
  | nil => simp [dictFind]
  | cons kv rest ih =>
      simp only [List.map_cons, List.mem_cons, not_or] at h
      have h1 : ¬kv.1 = k := fun hh => h.1 hh.symm
      simp [dictFind, h1, ih h.2]

theorem dictFind_dictPop_self (d : Registry) (k : String) (hnd : KeysNodup d) :
    dictFind (dictPop d k) k = none := by
  induction d with
  | nil => simp [dictPop, dictFind]
  | cons kv rest ih =>
      simp only [KeysNodup, List.map_cons, List.nodup_cons] at hnd
      by_cases hk : kv.1 = k
      · have : dictPop (kv :: rest) k = rest := by simp [dictPop, hk]
        rw [this]
        exact dictFind_eq_none_of_not_mem_keys rest k (hk ▸ hnd.1)
      · simp [dictPop, hk, dictFind, ih hnd.2]

theorem keys_dictSet (d : Registry) (k : String) (v : List WebSocket) :
    (dictSet d k v).map Prod.fst =
      if k ∈ d.map Prod.fst then d.map Prod.fst else d.map Prod.fst ++ [k] := by
  induction d with
  | nil => simp [dictSet]
  | cons kv rest ih =>
      obtain ⟨a, b⟩ := kv
      by_cases hk : a = k
      · simp [dictSet, hk]
      · have h1 : ¬k = a := fun hh => hk hh.symm
        by_cases hm : k ∈ rest.map Prod.fst
        · simp [dictSet, hk, hm, ih, h1]
        · simp [dictSet, hk, hm, ih, h1]

theorem keysNodup_dictSet (d : Registry) (k : String) (v : List WebSocket)
    (hnd : KeysNodup d) : KeysNodup (dictSet d k v) := by
  unfold KeysNodup
  rw [keys_dictSet]
  by_cases hm : k ∈ d.map Prod.fst
  · simpa [hm] using hnd
  · simp [hm, List.nodup_append]
    exact hnd

theorem keysNodup_dictPop (d : Registry) (k : String) (hnd : KeysNodup d) :
    KeysNodup (dictPop d k) :=
  ((dictPop_sublist d k).map Prod.fst).nodup hnd

theorem mem_dictSet (d : Registry) (k : String) (v : List WebSocket)
    (kv' : String × List WebSocket) (h : kv' ∈ dictSet d k v) :
    kv' = (k, v) ∨ kv' ∈ d := by
  induction d with
  | nil => simp [dictSet] at h; simp [h]
  | cons kv rest ih =>
      obtain ⟨a, b⟩ := kv
      by_cases hk : a = k
      · simp [dictSet, hk] at h
        rcases h with h | h
        · left; exact h
        · right; simp [h]
      · simp [dictSet, hk] at h
        rcases h with h | h
        · right; simp [h]
        · rcases ih h with h' | h'
          · left; exact h'
          · right; simp [h']

/-! ### ConnectionManager lemmas -/

theorem connect_find_self (m : ConnectionManager) (uid : String) (c : WebSocket) :
    dictFind (m.connect uid c).active uid = some (dictGet m.active uid ++ [c]) := by
  unfold ConnectionManager.connect
  exact dictFind_dictSet_self _ _ _

theorem connect_get_self (m : ConnectionManager) (uid : String) (c : WebSocket) :
    dictGet (m.connect uid c).active uid = dictGet m.active uid ++ [c] := by
  simp [dictGet, connect_find_self]

theorem keysNodup_connect (m : ConnectionManager) (uid : String) (c : WebSocket)
    (hnd : KeysNodup m.active) : KeysNodup (m.connect uid c).active :=
  keysNodup_dictSet _ _ _ hnd

theorem disconnect_find_self (m : ConnectionManager) (uid : String) (ws : WebSocket)
    (hnd : KeysNodup m.active) :
    dictFind (m.disconnect uid ws).active uid =
      if ((dictGet m.active uid).erase ws).isEmpty then none
      else some ((dictGet m.active uid).erase ws) := by
  unfold ConnectionManager.disconnect
  cases h : dictFind m.active uid with
  | none => simp [dictGet, h]
  | some conns =>
      have hg : dictGet m.active uid = conns := by simp [dictGet, h]
      have hc : (if ws ∈ conns then conns.erase ws else conns) = conns.erase ws := by
        by_cases hm : ws ∈ conns
        · simp [hm]
        · simp [hm, List.erase_of_not_mem hm]
      rw [hg]
      simp only [hc]
      by_cases he : (conns.erase ws).isEmpty
      · simp [he, dictFind_dictPop_self m.active uid hnd]
      · simp [he, dictFind_dictSet_self]

theorem disconnect_get_self (m : ConnectionManager) (uid : String) (ws : WebSocket)
    (hnd : KeysNodup m.active) :
    dictGet (m.disconnect uid ws).active uid = (dictGet m.active uid).erase ws := by
  have h := disconnect_find_self m uid ws hnd
  by_cases he : ((dictGet m.active uid).erase ws).isEmpty = true
  · rw [if_pos he] at h
    rw [List.isEmpty_iff.mp he]
    unfold dictGet
    rw [h]
    rfl
  · rw [if_neg he] at h
    unfold dictGet
    rw [h]
    rfl

theorem keysNodup_disconnect (m : ConnectionManager) (uid : String) (ws : WebSocket)
    (hnd : KeysNodup m.active) : KeysNodup (m.disconnect uid ws).active := by
  unfold ConnectionManager.disconnect
  cases h : dictFind m.active uid with
  | none => exact hnd
  | some conns =>
      dsimp only
      by_cases hm : ws ∈ conns
      · simp only [if_pos hm]
        by_cases he : (conns.erase ws).isEmpty = true
        · simp only [if_pos he]
          exact keysNodup_dictPop _ _ hnd
        · simp only [if_neg he]
          exact keysNodup_dictSet _ _ _ hnd
      · simp only [if_neg hm]
        by_cases he : conns.isEmpty = true
        · simp only [if_pos he]
          exact keysNodup_dictPop _ _ hnd
        · simp only [if_neg he]
          exact keysNodup_dictSet _ _ _ hnd

theorem eraseList_nil_left (xs : List WebSocket) : eraseList [] xs = [] := by
  induction xs with
  | nil => rfl
  | cons x xs ih => simpa [eraseList, List.foldl_cons] using ih

theorem eraseList_cons_of_ne (xs : List WebSocket) :
    ∀ (l : List WebSocket) (c : WebSocket), (∀ x ∈ xs, x ≠ c) →
      eraseList (c :: l) xs = c :: eraseList l xs := by
  induction xs with
  | nil => intro l c _; rfl
  | cons x xs ih =>
      intro l c h
      have hxc : ¬(c == x) = true := by
        simp only [beq_iff_eq]
        exact fun hh => (h x (by simp)) hh.symm
      simp only [eraseList, List.foldl_cons, List.erase_cons_tail hxc]
      exact ih (l.erase x) c (fun y hy => h y (by simp [hy]))

theorem eraseList_filter_not (p : WebSocket → Bool) (l : List WebSocket) :
    eraseList l (l.filter (fun c => !p c)) = l.filter p := by
  induction l with
  | nil => rfl
  | cons c rest ih =>
      by_cases hp : p c
      · have h1 : (c :: rest).filter (fun c => !p c) = rest.filter (fun c => !p c) := by
          simp [hp]
        rw [h1, eraseList_cons_of_ne _ rest c, ih]
        · simp [hp]
        · intro x hx
          have : ¬p x := by simpa using (List.mem_filter.mp hx).2
          exact fun hh => this (hh ▸ hp)
      · have h1 : (c :: rest).filter (fun c => !p c) = c :: rest.filter (fun c => !p c) := by
          simp [hp]
        rw [h1]
        have h2 : eraseList (c :: rest) (c :: rest.filter (fun c => !p c)) =
            eraseList rest (rest.filter (fun c => !p c)) := by
          simp [eraseList, List.foldl_cons, List.erase_cons_head]
        rw [h2, ih]
        simp [hp]

theorem foldl_disconnect_get (uid : String) (stale : List WebSocket) :
    ∀ (m : ConnectionManager), KeysNodup m.active →
      dictGet ((stale.foldl (fun acc ws => acc.disconnect uid ws) m)).active uid =
        eraseList (dictGet m.active uid) stale := by
  induction stale with
  | nil => intro m _; rfl
  | cons ws stale ih =>
      intro m hnd
      simp only [List.foldl_cons]
      rw [ih _ (keysNodup_disconnect m uid ws hnd), disconnect_get_self m uid ws hnd]
      rfl

theorem dictFind_mem (d : Registry) (k : String) (v : List WebSocket)
    (h : dictFind d k = some v) : (k, v) ∈ d := by
  induction d with
  | nil => simp [dictFind] at h
  | cons kv rest ih =>
      obtain ⟨a, b⟩ := kv
      by_cases hk : a = k
      · subst hk
        simp [dictFind] at h
        simp [h]
      · simp [dictFind, hk] at h
        simp [ih h]

theorem inv_connect (m : ConnectionManager) (uid : String) (c : WebSocket)
    (h : m.Inv) : (m.connect uid c).Inv := by
  intro kv hkv
  rcases mem_dictSet _ _ _ kv hkv with h' | h'
  · rw [h']
    simp
  · exact h kv h'

theorem inv_disconnect (m : ConnectionManager) (uid : String) (ws : WebSocket)
    (h : m.Inv) : (m.disconnect uid ws).Inv := by
  unfold ConnectionManager.disconnect
  cases hf : dictFind m.active uid with
  | none => exact h
  | some conns =>
      dsimp only
      by_cases hm : ws ∈ conns
      · simp only [if_pos hm]
        by_cases he : (conns.erase ws).isEmpty = true
        · simp only [if_pos he]
          intro kv hkv
          exact h kv ((dictPop_sublist m.active uid).subset hkv)
        · simp only [if_neg he]
          intro kv hkv
          rcases mem_dictSet _ _ _ kv hkv with h' | h'
          · rw [h']
            intro hh
            exact he (List.isEmpty_iff.mpr hh)
          · exact h kv h'
      · simp only [if_neg hm]
        by_cases he : conns.isEmpty = true
        · simp only [if_pos he]
          intro kv hkv
          exact h kv ((dictPop_sublist m.active uid).subset hkv)
        · simp only [if_neg he]
          intro kv hkv
          rcases mem_dictSet _ _ _ kv hkv with h' | h'
          · rw [h']
            intro hh
            exact he (List.isEmpty_iff.mpr hh)
          · exact h kv h'

theorem inv_foldl_disconnect (uid : String) (l : List WebSocket) :
    ∀ (m : ConnectionManager), m.Inv →
      ((l.foldl (fun acc ws => acc.disconnect uid ws) m)).Inv := by
  induction l with
  | nil => intro m h; exact h
  | cons ws l ih =>
      intro m h
      simp only [List.foldl_cons]
      exact ih _ (inv_disconnect m uid ws h)

theorem inv_broadcast (m : ConnectionManager) (uid : String) (msg : Msg)
    (h : m.Inv) : ((m.broadcast uid msg).2).Inv :=
  inv_foldl_disconnect uid _ m h

theorem inv_applyOp (m : ConnectionManager) (op : RegOp) (h : m.Inv) :
    (applyOp m op).Inv := by
  cases op with
  | connect uid ws => exact inv_connect m uid ws h
  | disconnect uid ws => exact inv_disconnect m uid ws h
  | broadcast uid msg => exact inv_broadcast m uid msg h

theorem inv_foldl_applyOp (ops : List RegOp) :
    ∀ (m : ConnectionManager), m.Inv → ((ops.foldl applyOp m)).Inv := by
  induction ops with
  | nil => intro m h; exact h
  | cons op ops ih =>
      intro m h
      simp only [List.foldl_cons]
      exact ih _ (inv_applyOp m op h)

theorem inv_empty : ConnectionManager.empty.Inv := by
  intro kv hkv
  simp [ConnectionManager.empty] at hkv

theorem foldl_connect_find (uid : String) (cs : List WebSocket) :
    ∀ (m : ConnectionManager) (l : List WebSocket), dictFind m.active uid = some l →
      dictFind ((cs.foldl (fun acc c => acc.connect uid c) m)).active uid = some (l ++ cs) := by
  induction cs with
  | nil => intro m l h; simpa using h
  | cons c cs ih =>
      intro m l h
      simp only [List.foldl_cons]
      have h1 : dictFind (m.connect uid c).active uid = some (l ++ [c]) := by
        rw [connect_find_self]
        simp [dictGet, h]
      rw [ih _ _ h1]
      simp

theorem foldl_connect_find_of_none (uid : String) (cs : List WebSocket)
    (m : ConnectionManager) (h0 : dictFind m.active uid = none) :
    dictFind ((cs.foldl (fun acc c => acc.connect uid c) m)).active uid =
      if cs.isEmpty then none else some cs := by
  cases cs with
  | nil => simpa using h0
  | cons c cs' =>
      simp only [List.foldl_cons]
      have h1 : dictFind (m.connect uid c).active uid = some [c] := by
        rw [connect_find_self]
        simp [dictGet, h0]
      rw [foldl_connect_find uid cs' _ [c] h1]
      simp

theorem keysNodup_foldl_connect (uid : String) (cs : List WebSocket) :
    ∀ (m : ConnectionManager), KeysNodup m.active →
      KeysNodup ((cs.foldl (fun acc c => acc.connect uid c) m)).active := by
  induction cs with
  | nil => intro m h; exact h
  | cons c cs ih =>
      intro m h
      simp only [List.foldl_cons]
      exact ih _ (keysNodup_connect m uid c h)

theorem foldl_disconnect_perm (uid : String) (ds : List WebSocket) :
    ∀ (l : List WebSocket) (m : ConnectionManager), KeysNodup m.active → l.Perm ds →
      dictFind m.active uid = (if l.isEmpty then none else some l) →
      dictFind ((ds.foldl (fun acc ws => acc.disconnect uid ws) m)).active uid = none := by
  induction ds with
  | nil =>
      intro l m _ hperm hf
      have hl : l = [] := hperm.eq_nil
      subst hl
      simpa using hf
  | cons d ds ih =>
      intro l m hnd hperm hf
      have hd : d ∈ l := hperm.mem_iff.mpr (by simp)
      have hl : ¬l.isEmpty = true := by
        intro hh
        rw [List.isEmpty_iff.mp hh] at hd
        exact List.not_mem_nil d hd
      rw [if_neg hl] at hf
      have hperm' : (l.erase d).Perm ds :=
        ((List.perm_cons_erase hd).symm.trans hperm).cons_inv
      simp only [List.foldl_cons]
      apply ih (l.erase d) _ (keysNodup_disconnect m uid d hnd) hperm'
      rw [disconnect_find_self m uid d hnd]
      have hg : dictGet m.active uid = l := by simp [dictGet, hf]
      rw [hg]

theorem disconnect_not_mem_noop (m : ConnectionManager) (uid : String) (ws : WebSocket)
    (hInv : m.Inv) (h : ws ∉ dictGet m.active uid) : m.disconnect uid ws = m := by
  unfold ConnectionManager.disconnect
  cases hf : dictFind m.active uid with
  | none => rfl
  | some conns =>
      have hg : dictGet m.active uid = conns := by simp [dictGet, hf]
      rw [hg] at h
      have hne : conns ≠ [] := hInv (uid, conns) (dictFind_mem m.active uid conns hf)
      dsimp only
      rw [if_neg h, if_neg (by simpa [List.isEmpty_iff] using hne)]
      have : dictSet m.active uid conns = m.active := dictSet_of_find_eq m.active uid conns hf
      rw [this]

/-! ### Claim theorems -/

/-- C1: if the registered connection set of `user_id` contains a
connection to which sending succeeds (`alive`) and an already-dead
connection to which sending raises, then `broadcast(user_id, message)`
delivers the message to the healthy connection and removes the dead
connection from the registry; `broadcast` is a total function in this
model (the source catches every send exception), so no error reaches the
caller. -/
theorem broadcast_best_effort (m : ConnectionManager) (uid : String) (message : Msg)
    (healthy dead : WebSocket) (hnd : KeysNodup m.active)
    (h1 : healthy ∈ dictGet m.active uid) (ha1 : healthy.alive = true)
    (hdead : dead ∈ dictGet m.active uid) (ha2 : dead.alive = false) :
    (healthy, message) ∈ (m.broadcast uid message).1 ∧
    dead ∉ dictGet (m.broadcast uid message).2.active uid := by
  constructor
  · unfold ConnectionManager.broadcast
    exact List.mem_map_of_mem _ (List.mem_filter.mpr ⟨h1, ha1⟩)
  · unfold ConnectionManager.broadcast
    dsimp only
    rw [foldl_disconnect_get uid _ m hnd, eraseList_filter_not (fun ws => ws.alive)]
    intro hmem
    have h := (List.mem_filter.mp hmem).2
    rw [ha2] at h
    exact Bool.false_ne_true h

/-- Concrete instance of `broadcast_best_effort`: one healthy and one dead
viewer of "u1". -/
theorem broadcast_best_effort_witness :
    ((⟨1, true⟩ : WebSocket), (⟨"track", []⟩ : Msg)) ∈
      ((⟨[("u1", [⟨1, true⟩, ⟨2, false⟩])]⟩ : ConnectionManager).broadcast "u1"
          ⟨"track", []⟩).1 ∧
    (⟨2, false⟩ : WebSocket) ∉
      dictGet ((⟨[("u1", [⟨1, true⟩, ⟨2, false⟩])]⟩ : ConnectionManager).broadcast "u1"
          ⟨"track", []⟩).2.active "u1" :=
  broadcast_best_effort ⟨[("u1", [⟨1, true⟩, ⟨2, false⟩])]⟩ "u1" ⟨"track", []⟩
    ⟨1, true⟩ ⟨2, false⟩ (by decide) (by decide) rfl (by decide) rfl

/-- C2 as stated is false: `connect` appends unconditionally to the user's
list, so connecting the same connection twice registers it twice. -/
theorem connect_not_idempotent_counterexample :
    (dictGet ((ConnectionManager.empty.connect "u1" ⟨7, true⟩).connect "u1"
        ⟨7, true⟩).active "u1").count ⟨7, true⟩ = 2 := by
  decide

/-- C2 amended: `connect(user_id, connection)` appends the connection to
the user's registered list, so each call adds exactly one more occurrence
of it — a viewer connected twice is registered twice, not once. -/
theorem connect_appends (m : ConnectionManager) (uid : String) (c : WebSocket) :
    dictGet (m.connect uid c).active uid = dictGet m.active uid ++ [c] ∧
    (dictGet (m.connect uid c).active uid).count c =
      (dictGet m.active uid).count c + 1 := by
  refine ⟨connect_get_self m uid c, ?_⟩
  rw [connect_get_self m uid c, List.count_append]
  simp

/-- C9: every user id present as a key of the registry maps to a non-empty
connection list; each of connect / disconnect / broadcast preserves the
invariant, and it holds after every operation sequence from the empty
registry. -/
theorem registry_nonempty_invariant :
    (∀ (m : ConnectionManager) (op : RegOp), m.Inv → (applyOp m op).Inv) ∧
    (∀ ops : List RegOp, ((ops.foldl applyOp ConnectionManager.empty)).Inv) :=
  ⟨fun m op h => inv_applyOp m op h,
   fun ops => inv_foldl_applyOp ops ConnectionManager.empty inv_empty⟩

/-- Concrete instance of `registry_nonempty_invariant`: disconnecting the
only viewer of "u1" keeps the invariant (the entry is removed, not left
empty). -/
theorem registry_nonempty_invariant_witness :
    (⟨[("u1", [⟨3, true⟩])]⟩ : ConnectionManager).Inv ∧
    (applyOp ⟨[("u1", [⟨3, true⟩])]⟩ (RegOp.disconnect "u1" ⟨3, true⟩)).Inv :=
  ⟨by decide,
   registry_nonempty_invariant.1 ⟨[("u1", [⟨3, true⟩])]⟩
     (RegOp.disconnect "u1" ⟨3, true⟩) (by decide)⟩

/-- C3: starting from a registry with no entry for `uid`, opening the
connections `cs` and then disconnecting each of them (in any order `ds`,
a permutation of `cs`) leaves NO entry for `uid` — not even an empty one;
and disconnecting a connection that is not registered is a no-op. -/
theorem disconnect_cycle_no_entry
    (m : ConnectionManager) (uid : String) (cs ds : List WebSocket)
    (hnd : KeysNodup m.active) (h0 : dictFind m.active uid = none)
    (hperm : ds.Perm cs) :
    dictFind ((ds.foldl (fun acc ws => acc.disconnect uid ws)
        (cs.foldl (fun acc c => acc.connect uid c) m))).active uid = none ∧
    (∀ (m' : ConnectionManager) (uid' : String) (c : WebSocket),
      m'.Inv → c ∉ dictGet m'.active uid' → m'.disconnect uid' c = m') := by
  constructor
  · have hnd1 : KeysNodup ((cs.foldl (fun acc c => acc.connect uid c) m)).active :=
      keysNodup_foldl_connect uid cs m hnd
    have hf1 := foldl_connect_find_of_none uid cs m h0
    exact foldl_disconnect_perm uid ds cs _ hnd1 hperm.symm hf1
  · exact fun m' uid' c hInv hnm => disconnect_not_mem_noop m' uid' c hInv hnm

/-- Concrete instance of `disconnect_cycle_no_entry`: two viewers of "u1"
connect and both disconnect (in swapped order) — the "u1" entry is gone;
and disconnecting an unknown socket from a one-viewer registry changes
nothing. -/
theorem disconnect_cycle_no_entry_witness :
    dictFind (([⟨2, true⟩, ⟨1, true⟩].foldl
        (fun acc ws => acc.disconnect "u1" ws)
        ([⟨1, true⟩, ⟨2, true⟩].foldl (fun acc c => acc.connect "u1" c)
          ConnectionManager.empty))).active "u1" = none ∧
    (⟨[("u2", [⟨5, true⟩])]⟩ : ConnectionManager).disconnect "u2" ⟨9, false⟩ =
      ⟨[("u2", [⟨5, true⟩])]⟩ :=
  have h := disconnect_cycle_no_entry ConnectionManager.empty "u1"
    [⟨1, true⟩, ⟨2, true⟩] [⟨2, true⟩, ⟨1, true⟩] (by decide) rfl (by decide)
  ⟨h.1, h.2 ⟨[("u2", [⟨5, true⟩])]⟩ "u2" ⟨9, false⟩ (by decide) (by decide)⟩

/-- C8 as stated is false: the provider string "Google" is NOT an element
of the allow-set {google, microsoft, apple, mock}, yet the request is
accepted (the code lowercases the provider before the check) and a User
record IS created. -/
theorem mock_login_unsupported_counterexample :
    "Google" ∉ allowedProviders ∧
    (mock_login ⟨"Google", none, none, none, none⟩ 0 Store.empty).1 =
      .ok (0, "google") ∧
    (mock_login ⟨"Google", none, none, none, none⟩ 0 Store.empty).2.users.length = 1 :=
  ⟨by decide, rfl, rfl⟩

/-- C8 amended: every mock-login request whose LOWERCASED provider is not
in the allow-set {google, microsoft, apple, mock} is rejected with a 400
"Unsupported provider" error and the store is unchanged — no User record
is created. -/
theorem mock_login_unknown_provider_rejected (payload : MockAuthRequest) (t : Nat)
    (st : Store) (h : pyLower payload.provider ∉ allowedProviders) :
    mock_login payload t st = (.error (400, "Unsupported provider"), st) := by
  simp [mock_login, h]

/-- Concrete instance of `mock_login_unknown_provider_rejected`:
provider "slack" is rejected and nothing is persisted. -/
theorem mock_login_unknown_provider_rejected_witness :
    mock_login ⟨"slack", none, none, none, none⟩ 0 Store.empty =
      (.error (400, "Unsupported provider"), Store.empty) :=
  mock_login_unknown_provider_rejected ⟨"slack", none, none, none, none⟩ 0
    Store.empty (by decide)

/-- C10: mock-login matches the provider case-insensitively — the
provider string is lowercased before the allow-set check — and whenever
the lowercased provider is allowed, the response carries the generated id
and the lowercased provider name, exactly one User record is appended,
and every new record carries the lowercased provider. -/
theorem mock_login_lowercases_provider (payload : MockAuthRequest) (t : Nat) (st : Store)
    (h : pyLower payload.provider ∈ allowedProviders) :
    (mock_login payload t st).1 = .ok (st.nextId, pyLower payload.provider) ∧
    (mock_login payload t st).2.users.length = st.users.length + 1 ∧
    ∀ u ∈ (mock_login payload t st).2.users,
      u ∈ st.users ∨ u.data.provider = some (pyLower payload.provider) := by
  refine ⟨?_, ?_, ?_⟩
  · simp [mock_login, h, Store.create_user]
  · simp [mock_login, h, Store.create_user]
  · intro u hu
    simp [mock_login, h, Store.create_user] at hu
    rcases hu with hu | hu
    · exact Or.inl hu
    · right
      rw [hu]

/-- Concrete instances of `mock_login_lowercases_provider`: "Google" and
"APPLE" are accepted and both the response and the stored record carry the
lowercased name. -/
theorem mock_login_lowercases_provider_witness :
    (mock_login ⟨"Google", none, none, none, none⟩ 0 Store.empty).1 =
      .ok (0, "google") ∧
    (mock_login ⟨"APPLE", none, none, none, none⟩ 0 Store.empty).1 =
      .ok (0, "apple") ∧
    ∀ u ∈ (mock_login ⟨"Google", none, none, none, none⟩ 0 Store.empty).2.users,
      u ∈ Store.empty.users ∨ u.data.provider = some "google" :=
  ⟨(mock_login_lowercases_provider ⟨"Google", none, none, none, none⟩ 0
      Store.empty (by decide)).1.trans rfl,
   (mock_login_lowercases_provider ⟨"APPLE", none, none, none, none⟩ 0
      Store.empty (by decide)).1.trans rfl,
   fun u hu => (mock_login_lowercases_provider ⟨"Google", none, none, none, none⟩ 0
      Store.empty (by decide)).2.2 u hu⟩

/-- C4: a Trackpoint submission whose latitude is outside [-90, 90] or
longitude outside [-180, 180], and an Incident creation with lat/lng
outside those ranges, are rejected with a validation error before any
side effect: the state is returned unchanged (no document persisted, no
generated id produced) and no broadcast occurs. -/
theorem out_of_range_rejected_before_side_effects
    (p : Trackpoint) (inc : Incident) (tS tC tC' : Nat) (sys : SysState) (st : Store)
    (hp : p.lat < -90 ∨ 90 < p.lat ∨ p.lng < -180 ∨ 180 < p.lng)
    (hi : (∃ v, inc.lat = some v ∧ (v < -90 ∨ 90 < v)) ∨
          (∃ v, inc.lng = some v ∧ (v < -180 ∨ 180 < v))) :
    location_update p tS tC sys = (.error (422, "validation error"), sys, []) ∧
    create_incident inc tC' st = (.error (422, "validation error"), st) := by
  have hvp : p.validB = false := by
    unfold Trackpoint.validB
    rcases hp with h | h | h | h <;>
      simp [decide_eq_false (not_le.mpr h)]
  have hvi : inc.validB = false := by
    unfold Incident.validB
    rcases hi with ⟨v, hv, hr⟩ | ⟨v, hv, hr⟩ <;>
      rw [hv] <;> rcases hr with hr | hr <;>
      simp [decide_eq_false (not_le.mpr hr)]
  exact ⟨by simp [location_update, hvp], by simp [create_incident, hvi]⟩

/-- Concrete instance of `out_of_range_rejected_before_side_effects`:
`lat = 95` for both a Trackpoint and an Incident. -/
theorem out_of_range_rejected_before_side_effects_witness :
    location_update ⟨"u1", 95, 0, none, none, none, none, none⟩ 0 0
        ⟨Store.empty, ConnectionManager.empty⟩ =
      (.error (422, "validation error"), ⟨Store.empty, ConnectionManager.empty⟩, []) ∧
    create_incident ⟨"u1", "sos", none, some 95, none, [], none⟩ 0 Store.empty =
      (.error (422, "validation error"), Store.empty) :=
  out_of_range_rejected_before_side_effects
    ⟨"u1", 95, 0, none, none, none, none, none⟩
    ⟨"u1", "sos", none, some 95, none, [], none⟩ 0 0 0
    ⟨Store.empty, ConnectionManager.empty⟩ Store.empty
    (Or.inr (Or.inl (by norm_num)))
    (Or.inl ⟨95, rfl, Or.inr (by norm_num)⟩)

/-- Every pair delivered by `broadcast` carries the broadcast message. -/
theorem mem_broadcast_sent (m : ConnectionManager) (uid : String) (msg : Msg)
    (d : WebSocket × Msg) (hd : d ∈ (m.broadcast uid msg).1) : d.2 = msg := by
  unfold ConnectionManager.broadcast at hd
  obtain ⟨ws, _, rfl⟩ := List.mem_map.mp hd
  rfl

/-- Membership in the non-null filter of a dumped field dictionary. -/
theorem mem_nonNullItems (l : List (String × Option Val)) (k : String) (v : Val) :
    (k, v) ∈ nonNullItems l ↔ ∃ kv ∈ l, kv.1 = k ∧ kv.2 = some v := by
  simp only [nonNullItems, List.mem_filterMap, Option.map_eq_some', Prod.mk.injEq]
  constructor
  · rintro ⟨kv, hkv, w, hw, hk, hval⟩
    exact ⟨kv, hkv, hk, by rw [hw, hval]⟩
  · rintro ⟨kv, hkv, hk, hval⟩
    exact ⟨kv, hkv, v, hval, hk, rfl⟩

/-- C7: for every Trackpoint accepted by submit, every message the
broadcast delivers to the point's user channel is a `"track"` message
whose data is exactly the non-null fields of the original point plus the
generated `_id` and `server_ts` serialized to the canonical timestamp
format: each field key maps to a value iff the original point carried
that non-null value; and the generated identifier is returned to the
caller. -/
theorem submit_broadcast_payload (p : Trackpoint) (tS tC : Nat) (sys : SysState)
    (hv : p.validB = true) :
    (location_update p tS tC sys).1 = .ok sys.store.nextId ∧
    ∀ d ∈ (location_update p tS tC sys).2.2,
      d.2.type = "track" ∧
      d.2.data = nonNullItems p.model_dump ++
        [("_id", Val.n sys.store.nextId), ("server_ts", Val.s (isoformat tS))] ∧
      ("_id", Val.n sys.store.nextId) ∈ d.2.data ∧
      ("server_ts", Val.s (isoformat tS)) ∈ d.2.data ∧
      (∀ v, ("user_id", Val.s v) ∈ d.2.data ↔ v = p.user_id) ∧
      (∀ v, ("lat", Val.q v) ∈ d.2.data ↔ v = p.lat) ∧
      (∀ v, ("lng", Val.q v) ∈ d.2.data ↔ v = p.lng) ∧
      (∀ v, ("accuracy", Val.q v) ∈ d.2.data ↔ p.accuracy = some v) ∧
      (∀ v, ("speed", Val.q v) ∈ d.2.data ↔ p.speed = some v) ∧
      (∀ v, ("heading", Val.q v) ∈ d.2.data ↔ p.heading = some v) ∧
      (∀ v, ("battery", Val.q v) ∈ d.2.data ↔ p.battery = some v) ∧
      (∀ v, ("ts", Val.n v) ∈ d.2.data ↔ p.ts = some v) := by
  constructor
  · simp [location_update, hv, Store.create_trackpoint]
  · intro d hd
    have hmsg : d.2 = (⟨"track", nonNullItems p.model_dump ++
        [("_id", Val.n sys.store.nextId), ("server_ts", Val.s (isoformat tS))]⟩ : Msg) := by
      apply mem_broadcast_sent sys.mgr p.user_id _ d
      simpa [location_update, hv, Store.create_trackpoint] using hd
    rw [hmsg]
    refine ⟨rfl, rfl, by simp, by simp, ?_, ?_, ?_, ?_, ?_, ?_, ?_, ?_⟩ <;>
      intro v <;>
      simp [mem_nonNullItems, Trackpoint.model_dump, Option.map_eq_some', eq_comm]

/-- Concrete instance of `submit_broadcast_payload`: a valid point for
"u1" with one viewer connected returns the generated id 0. -/
theorem submit_broadcast_payload_witness :
    (location_update ⟨"u1", 12, 77, none, none, none, none, none⟩ 5 6
        ⟨Store.empty, ⟨[("u1", [⟨1, true⟩])]⟩⟩).1 = .ok 0 :=
  (submit_broadcast_payload ⟨"u1", 12, 77, none, none, none, none, none⟩ 5 6
      ⟨Store.empty, ⟨[("u1", [⟨1, true⟩])]⟩⟩ (by decide)).1

/-- C5 as stated is false: on `twoPointStore` (reachable when two
submissions' clock reads interleave) `location_last` returns the point
with `server_ts = 5` — the larger `created_at` — although a point with
`server_ts = 6` is stored for the same user, so the result is not the
most recent point by the authoritative `server_ts` ordering key. -/
theorem location_last_not_server_ts_counterexample :
    (location_last twoPointStore "u1").map (fun d => d.server_ts) = some 5 ∧
    isMostRecentByServerTs twoPointStore "u1" (location_last twoPointStore "u1") =
      false := by
  decide

/-- C5 amended: `location_last` returns, among (at most) the first 50
trackpoints the store returns for the user, one with maximal `created_at`
key (`datetime.min` for a missing key) — the ordering key is `created_at`,
not `server_ts`, and only the 50-truncated query result is considered —
and returns `none` exactly when that truncated list is empty. -/
theorem location_last_max_createdKey (st : Store) (uid : String) :
    (location_last st uid = none ↔ st.get_trackpoints uid 50 = []) ∧
    ∀ d, location_last st uid = some d →
      d ∈ st.get_trackpoints uid 50 ∧
      ∀ x ∈ st.get_trackpoints uid 50, createdKey x ≤ createdKey d := by
  constructor
  · constructor
    · intro h
      have hnil := List.head?_eq_none_iff.mp h
      have hp := List.perm_insertionSort byCreatedDesc (st.get_trackpoints uid 50)
      rw [hnil] at hp
      exact hp.symm.eq_nil
    · intro h
      unfold location_last
      rw [h]
      rfl
  · intro d hd
    simp only [location_last] at hd
    have hsorted := List.sorted_insertionSort byCreatedDesc (st.get_trackpoints uid 50)
    have hperm := List.perm_insertionSort byCreatedDesc (st.get_trackpoints uid 50)
    cases hs : (st.get_trackpoints uid 50).insertionSort byCreatedDesc with
    | nil => rw [hs] at hd; simp at hd
    | cons a rest =>
        rw [hs] at hd hsorted hperm
        simp only [List.head?_cons, Option.some.injEq] at hd
        subst hd
        constructor
        · exact hperm.subset (by simp)
        · intro x hx
          have hx' : x ∈ a :: rest := hperm.mem_iff.mpr hx
          rcases List.mem_cons.mp hx' with h | h
          · exact h ▸ le_refl (createdKey a)
          · exact List.rel_of_sorted_cons hsorted x h

/-- Concrete instance of `location_last_max_createdKey` on
`twoPointStore`: the returned document is in the query result and carries
its maximal `created_at`. -/
theorem location_last_max_createdKey_witness :
    (⟨⟨"u1", 1, 2, none, none, none, none, none⟩, 5, 1, some 10⟩ : TrackDoc) ∈
        twoPointStore.get_trackpoints "u1" 50 ∧
    ∀ x ∈ twoPointStore.get_trackpoints "u1" 50,
      createdKey x ≤
        createdKey (⟨⟨"u1", 1, 2, none, none, none, none, none⟩, 5, 1, some 10⟩ : TrackDoc) :=
  (location_last_max_createdKey twoPointStore "u1").2
    ⟨⟨"u1", 1, 2, none, none, none, none, none⟩, 5, 1, some 10⟩ (by decide)

/-- C6: the code is wrong here — `websocket_endpoint` queries the user's
trackpoints with `limit=1` and only sorts afterwards, so the new viewer is
pushed the FIRST trackpoint the store returns, not the most recent one
(the code's own comment says "send last known point if any").  On
`chronoStore` the fresh connection receives the `server_ts = 1`
(`created_at = 10`) point as its `"last"` message although a
`server_ts = 2` (`created_at = 20`) point for the same user is stored;
with an empty store, no initial message is sent, as the claim says. -/
theorem websocket_initial_push_is_first_not_latest :
    (websocket_endpoint ⟨chronoStore, ConnectionManager.empty⟩ "u1" ⟨1, true⟩).2 =
      [(⟨1, true⟩, ⟨"last", ⟨⟨"u1", 1, 2, none, none, none, none, none⟩, 1, 0, some 10⟩⟩)] ∧
    (⟨⟨"u1", 3, 4, none, none, none, none, none⟩, 2, 1, some 20⟩ : TrackDoc) ∈
      chronoStore.trackpoints ∧
    (10 : Nat) < 20 ∧ (1 : Nat) < 2 ∧
    (websocket_endpoint ⟨Store.empty, ConnectionManager.empty⟩ "u1" ⟨1, true⟩).2 = [] := by
  decide
